import Mathlib

/-!
Shallow embedding of the adaptive-streaming core of shaka-player
(`shaka.player.StreamVideoSource` and
`shaka.dash.DurationSegmentIndexSource`) together with theorems that
settle the specification claims about it.

JavaScript numbers are modelled as rationals (`ℚ`); `null`/`undefined`
values are modelled as `Option`; promise resolution/rejection is
modelled with `Except`.
-/

namespace Shaka

/-- One media segment reference (`shaka.media.SegmentReference`):
a start time and an optional end time, in seconds. -/
structure SegmentReference where
  startTime : ℚ
  endTime : Option ℚ
  deriving Repr, DecidableEq

/-- A segment index (`shaka.media.SegmentIndex`) is the ordered list of
its `SegmentReference`s; `first()`/`last()`/`length()` are the list
head, last element and length. -/
def SegmentIndex : Type := List SegmentReference

instance : DecidableEq SegmentIndex := inferInstanceAs (DecidableEq (List SegmentReference))

/-- Accumulator state of the loop in `computeStreamLimits`:
`startTime` and `endTime`, where `none` stands for
`Number.POSITIVE_INFINITY` (the initial `endTime`). -/
def minOpt (a : Option ℚ) (b : Option ℚ) : Option ℚ :=
  match a, b with
  | none, y => y
  | some x, none => some x
  | some x, some y => some (min x y)

/-- One iteration of the `for` loop in
`shaka.player.StreamVideoSource.prototype.computeStreamLimits`:
an empty index resets both accumulators to `0` and continues; otherwise
the start accumulator takes the max with `first().startTime`, and the
end accumulator takes the min with the live-edge
(`max(0, last().startTime - minBufferTime)`) for live manifests, or with
`last().endTime` (skipped when `null`) for static manifests. -/
def streamLimitsStep (live : Bool) (minBufferTime : ℚ)
    (acc : ℚ × Option ℚ) (segmentIndex : SegmentIndex) : ℚ × Option ℚ :=
  match segmentIndex.head?, segmentIndex.getLast? with
  | some first, some last =>
    let s := max acc.1 first.startTime
    if live then
      (s, minOpt acc.2 (some (max 0 (last.startTime - minBufferTime))))
    else
      match last.endTime with
      | some e => (s, minOpt acc.2 (some e))
      | none => (s, acc.2)
  | _, _ => (0, some 0)

/-- `shaka.player.StreamVideoSource.prototype.computeStreamLimits`:
folds `streamLimitsStep` over the given indexes starting from
`(0, +∞)`; if the end time is still `+∞` it falls back to the first
period's duration (`null` or `0` duration is falsy, so the fallback
fails and `null` is returned); returns `null` when `startTime > endTime`
and `{start, end}` otherwise. -/
def computeStreamLimits (live : Bool) (minBufferTime : ℚ)
    (periodDuration : Option ℚ) (segmentIndexes : List SegmentIndex) :
    Option (ℚ × ℚ) :=
  let acc := segmentIndexes.foldl (streamLimitsStep live minBufferTime) (0, none)
  let endTime : Option ℚ :=
    match acc.2 with
    | some e => some e
    | none =>
      match periodDuration with
      | some d => if d = 0 then none else some d
      | none => none
  match endTime with
  | none => none
  | some e => if acc.1 > e then none else some (acc.1, e)

/-! Specification-side formulas for the play window, written from the
spec's words: `start = max over i of first().start_time`, and
`end = min over i of max(0, last().start_time − min_buffer_time)` for
live, `min over i of (last().end_time or +∞)` for static with the first
period's duration as fallback. -/

/-- Maximum of a nonempty list of rationals (the head seeds the fold). -/
def maxList : List ℚ → ℚ
  | [] => 0
  | x :: xs => xs.foldl max x

/-- Minimum of a nonempty list of rationals (the head seeds the fold). -/
def minList : List ℚ → ℚ
  | [] => 0
  | x :: xs => xs.foldl min x

/-- First reference's start time of an index (`0` for an empty index;
only used on nonempty indexes). -/
def firstStartTime (idx : SegmentIndex) : ℚ :=
  match idx.head? with
  | some r => r.startTime
  | none => 0

/-- Last reference's start time of an index (`0` for an empty index). -/
def lastStartTime (idx : SegmentIndex) : ℚ :=
  match idx.getLast? with
  | some r => r.startTime
  | none => 0

/-- Last reference's end time of an index (`none` when absent). -/
def lastEndTime (idx : SegmentIndex) : Option ℚ :=
  match idx.getLast? with
  | some r => r.endTime
  | none => none

/-- Spec formula: `start = max over i of index[i].first().start_time`. -/
def specWindowStart (segmentIndexes : List SegmentIndex) : ℚ :=
  maxList (segmentIndexes.map firstStartTime)

/-- Spec formula for the live window end:
`min over i of max(0, index[i].last().start_time − min_buffer_time)`. -/
def specWindowEndLive (minBufferTime : ℚ) (segmentIndexes : List SegmentIndex) : ℚ :=
  minList (segmentIndexes.map (fun idx => max 0 (lastStartTime idx - minBufferTime)))

/-- Spec formula for the static window end:
`min over i of (index[i].last().end_time or +∞)`, i.e. the minimum of
the defined end times, with the first period's duration as fallback
when every end time is null (`none` when the fallback duration is
absent or zero). -/
def specWindowEndStatic (periodDuration : Option ℚ)
    (segmentIndexes : List SegmentIndex) : Option ℚ :=
  match segmentIndexes.filterMap lastEndTime with
  | [] =>
    match periodDuration with
    | some d => if d = 0 then none else some d
    | none => none
  | e :: es => some (minList (e :: es))

/-! Data model for stream sets and representations
(`shaka.media.StreamSetInfo`, `shaka.media.StreamInfo`). -/

/-- Content types handled by the coordinator. -/
inductive ContentType where
  | audio
  | video
  | text
  deriving Repr, DecidableEq, Inhabited

/-- `shaka.media.StreamInfo`: one representation. `width`/`height` are
`null` for non-video streams. -/
structure StreamInfo where
  uniqueId : ℕ
  bandwidth : ℚ
  width : Option ℚ
  height : Option ℚ
  fullMimeType : String
  enabled : Bool
  deriving Repr, DecidableEq, Inhabited

/-- `shaka.media.StreamSetInfo`: one adaptation set. -/
structure StreamSetInfo where
  uniqueId : ℕ
  contentType : ContentType
  lang : String
  main : Bool
  streamInfos : List StreamInfo
  deriving Repr, DecidableEq, Inhabited

/-- `shaka.player.VideoTrack`. -/
structure VideoTrack where
  id : ℕ
  bandwidth : ℚ
  width : Option ℚ
  height : Option ℚ
  active : Bool
  deriving Repr, DecidableEq

/-- `shaka.player.AudioTrack`. -/
structure AudioTrack where
  id : ℕ
  bandwidth : ℚ
  lang : String
  active : Bool
  deriving Repr, DecidableEq

/-- `shaka.player.TextTrack`. -/
structure TextTrack where
  id : ℕ
  lang : String
  active : Bool
  enabled : Bool
  deriving Repr, DecidableEq

/-- The active track id used by the listing functions:
`activeStreamInfo ? activeStreamInfo.uniqueId : 0`. -/
def activeTrackId (activeStreamInfo : Option StreamInfo) : ℕ :=
  match activeStreamInfo with
  | some si => si.uniqueId
  | none => 0

/-- Inner loop of `getVideoTracks`: builds one `VideoTrack` per
`StreamInfo`, skipping (`continue`) those with `enabled == false`, and
flags the one matching `activeId` as active. -/
def videoTracksOfInfos (activeId : ℕ) : List StreamInfo → List VideoTrack
  | [] => []
  | si :: rest =>
    if !si.enabled then videoTracksOfInfos activeId rest
    else
      { id := si.uniqueId, bandwidth := si.bandwidth, width := si.width,
        height := si.height, active := si.uniqueId == activeId } ::
        videoTracksOfInfos activeId rest

/-- `shaka.player.StreamVideoSource.prototype.getVideoTracks`. -/
def getVideoTracks (videoSets : List StreamSetInfo)
    (activeStreamInfo : Option StreamInfo) : List VideoTrack :=
  if videoSets.isEmpty then []
  else
    let activeId := activeTrackId activeStreamInfo
    (videoSets.map (fun ss => videoTracksOfInfos activeId ss.streamInfos)).flatten

/-- Inner loop of `getAudioTracks`: builds one `AudioTrack` per
`StreamInfo` of the set — with no check of `enabled` — flagging the one
matching `activeId` as active. -/
def audioTracksOfSet (activeId : ℕ) (ss : StreamSetInfo) : List AudioTrack :=
  ss.streamInfos.map (fun si =>
    { id := si.uniqueId, bandwidth := si.bandwidth, lang := ss.lang,
      active := si.uniqueId == activeId })

/-- `shaka.player.StreamVideoSource.prototype.getAudioTracks`. -/
def getAudioTracks (audioSets : List StreamSetInfo)
    (activeStreamInfo : Option StreamInfo) : List AudioTrack :=
  if audioSets.isEmpty then []
  else
    let activeId := activeTrackId activeStreamInfo
    (audioSets.map (audioTracksOfSet activeId)).flatten

/-- Inner loop of `getTextTracks`: builds one `TextTrack` per
`StreamInfo` of the set — with no check of `enabled` — flagging the one
matching `activeId` as active and copying the text stream's display
state onto the active track. -/
def textTracksOfSet (activeId : ℕ) (textDisplayed : Bool)
    (ss : StreamSetInfo) : List TextTrack :=
  ss.streamInfos.map (fun si =>
    { id := si.uniqueId, lang := ss.lang,
      active := si.uniqueId == activeId,
      enabled := si.uniqueId == activeId && textDisplayed })

/-- `shaka.player.StreamVideoSource.prototype.getTextTracks`.
`textDisplayed` is the text stream's `getEnabled()` state. -/
def getTextTracks (textSets : List StreamSetInfo)
    (activeStreamInfo : Option StreamInfo) (textDisplayed : Bool) : List TextTrack :=
  if textSets.isEmpty then []
  else
    let activeId := activeTrackId activeStreamInfo
    (textSets.map (textTracksOfSet activeId textDisplayed)).flatten

/-- The contribution of one nonempty index to the window-end
accumulator: the clamped live edge for live manifests, the last
reference's end time (possibly absent) for static ones. -/
def endContrib (live : Bool) (minBufferTime : ℚ) (idx : SegmentIndex) : Option ℚ :=
  if live then some (max 0 (lastStartTime idx - minBufferTime)) else lastEndTime idx

/-! Manifest data model (`shaka.media.PeriodInfo`,
`shaka.media.ManifestInfo`) and the coordinator state. -/

/-- `shaka.media.PeriodInfo`. -/
structure PeriodInfo where
  duration : Option ℚ
  streamSetInfos : List StreamSetInfo
  deriving Repr, DecidableEq, Inhabited

/-- `shaka.media.ManifestInfo`. -/
structure ManifestInfo where
  live : Bool
  minBufferTime : ℚ
  updatePeriod : Option ℚ
  periodInfos : List PeriodInfo
  deriving Repr, DecidableEq, Inhabited

/-- `shaka.player.DrmSchemeInfo.Restrictions`: absent fields are
`null`; a `0` value is falsy in the JavaScript `if` guards. -/
structure Restrictions where
  maxWidth : Option ℚ
  maxHeight : Option ℚ
  maxBandwidth : Option ℚ
  minBandwidth : Option ℚ
  deriving Repr, DecidableEq

/-- JavaScript truthiness of a nullable number: `null` and `0` are
falsy. -/
def truthy (x : Option ℚ) : Bool :=
  match x with
  | none => false
  | some v => !(v == 0)

/-- The mutable state of a `shaka.player.StreamVideoSource` that the
claims are about: the `loaded_` flag, the preferred language `lang_`,
the owned `manifestInfo`, the `streamSetsByType` multimap, the
`subsNeeded_` flag, and the `cachedRestrictions_`. -/
structure SourceState where
  loaded : Bool
  lang : String
  manifestInfo : Option ManifestInfo
  streamSetsByType : ContentType → List StreamSetInfo
  subsNeeded : Bool
  cachedRestrictions : Option Restrictions

/-- Error kinds raised by the coordinator's public operations; each is
an `Error` with `type == 'stream'` in the source, distinguished here by
its message: `alreadyLoaded` is `Cannot call load() right now`,
`noContent` is `The manifest does not specify any content`,
`manifestEmpty` is `The manifest specifies content that cannot be
displayed`, and `notLoaded` is `Cannot call attach() right now`. -/
inductive SourceError where
  | alreadyLoaded
  | noContent
  | manifestEmpty
  | notLoaded
  deriving Repr, DecidableEq

/-- Modelled from the spec: `shaka.media.StreamInfoProcessor.process`
(the Manifest Processor, spec §4.1) is not among the given sources. Per
the spec it drops the `StreamInfo`s whose full MIME type the injected
type-support predicate rejects and then drops the `StreamSet`s left
empty; the unique-id assignment and compatibility grouping do not
affect which periods end up with stream sets and are not modelled. -/
def processPeriods (supports : String → Bool) (ps : List PeriodInfo) : List PeriodInfo :=
  ps.map (fun p =>
    { p with
      streamSetInfos :=
        (p.streamSetInfos.map (fun ss =>
          { ss with streamInfos := ss.streamInfos.filter (fun si => supports si.fullMimeType) })).filter
          (fun ss => !ss.streamInfos.isEmpty) })

/-- `shaka.player.StreamVideoSource.prototype.load`: fails when already
loaded; fails when the manifest is absent or has no periods; processes
the periods and fails when, afterwards, the manifest has no periods or
its first period (`periodInfos[0]`) has no stream sets; otherwise
records the preferred language, marks the source loaded and resolves.
(The source assigns `lang_` before the final check; the error paths of
this embedding discard that write, which no claim observes.) -/
def load (supports : String → Bool) (st : SourceState) (preferredLanguage : String) :
    Except SourceError SourceState :=
  if st.loaded then Except.error SourceError.alreadyLoaded
  else
    match st.manifestInfo with
    | none => Except.error SourceError.noContent
    | some mi =>
      if mi.periodInfos.isEmpty then Except.error SourceError.noContent
      else
        let processed := processPeriods supports mi.periodInfos
        if processed.isEmpty || processed.headI.streamSetInfos.isEmpty then
          Except.error SourceError.manifestEmpty
        else
          Except.ok
            { st with
              loaded := true,
              lang := preferredLanguage,
              manifestInfo := some { mi with periodInfos := processed } }

/-- `shaka.player.StreamVideoSource.prototype.attach`, reduced to its
observable misuse gate: when the source is not loaded the returned
promise rejects with the `Cannot call attach() right now` error;
otherwise the call proceeds (the MediaSource/EME plumbing is out of
scope). -/
def attach (st : SourceState) : Except SourceError Unit :=
  if !st.loaded then Except.error SourceError.notLoaded else Except.ok ()

/-- One entry of the configuration lists passed to
`selectConfigurations`: the stream set's unique id and its basic MIME
type. -/
structure Config where
  id : ℕ
  basicMimeType : String
  deriving Repr, DecidableEq, Inhabited

/-- Modelled from the spec: `shaka.util.LanguageUtils` is not among the
given sources. Per the spec (§4.8) it provides a fuzzy BCP-47 match at
increasing fuzz levels between `MatchType.MIN` and `MatchType.MAX`; the
matcher is kept abstract as a predicate over (fuzz level, preferred
language, candidate language). -/
structure LangMatcher where
  fuzzMatch : ℕ → String → String → Bool
  minLevel : ℕ
  maxLevel : ℕ

/-- The list of fuzz levels `MIN, MIN+1, ..., MAX` walked by
`sortByLanguage_`. -/
def fuzzLevels (m : LangMatcher) : List ℕ :=
  List.range' m.minLevel (m.maxLevel + 1 - m.minLevel)

/-- The two-splice idiom of `sortByLanguage_`
(`splice(i, 1)` followed by `splice(0, 0, set)`): move the first
element satisfying `p` to the front, keeping everything else in order;
`none` when no element satisfies `p`. -/
def promoteFirst {α : Type} (p : α → Bool) (l : List α) : Option (List α) :=
  match l.dropWhile (fun a => !p a) with
  | [] => none
  | x :: rest => some (x :: (l.takeWhile (fun a => !p a) ++ rest))

/-- The fuzz-level loop of `sortByLanguage_`: at each level in order,
try to promote the first set matching the preferred language at that
level; stop at the lowest successful level. -/
def promoteByLevels (pred : ℕ → StreamSetInfo → Bool) :
    List ℕ → List StreamSetInfo → Option (List StreamSetInfo)
  | [], _ => none
  | lv :: lvs, sets =>
    match promoteFirst (pred lv) sets with
    | some r => some r
    | none => promoteByLevels pred lvs sets

/-- `shaka.player.StreamVideoSource.prototype.sortByLanguage_`: move
the best language match (lowest successful fuzz level) to the front;
when no language matches, move the first `main`-flagged set to the
front; otherwise leave the list unchanged. -/
def sortByLanguage (m : LangMatcher) (lang : String)
    (streamSets : List StreamSetInfo) : List StreamSetInfo :=
  match promoteByLevels (fun lv s => m.fuzzMatch lv lang s.lang) (fuzzLevels m) streamSets with
  | some r => r
  | none =>
    match promoteFirst (fun s => s.main) streamSets with
    | some r => r
    | none => streamSets

/-- The stream sets of the first period (`periodInfos[0]`), used by
`selectConfigurations`. -/
def period0Sets (st : SourceState) : List StreamSetInfo :=
  match st.manifestInfo with
  | some mi => mi.periodInfos.headI.streamSetInfos
  | none => []

/-- Lookup of `streamSetsById` built by `selectConfigurations`. -/
def streamSetById (sets : List StreamSetInfo) (id : ℕ) : Option StreamSetInfo :=
  sets.find? (fun ss => ss.uniqueId == id)

/-- The stream sets selected for one content type by
`selectConfigurations`: one set for video (`cfgList[0].id`), the sets
sharing `cfgList[0]`'s basic MIME type for audio, and every listed set
otherwise. -/
def setsForType (byId : ℕ → Option StreamSetInfo) (t : ContentType)
    (cfgList : List Config) : List StreamSetInfo :=
  match t with
  | ContentType.video => (byId cfgList.headI.id).toList
  | ContentType.audio =>
    let basicMimeType := cfgList.headI.basicMimeType
    (cfgList.filter (fun cfg => cfg.basicMimeType == basicMimeType)).filterMap
      (fun cfg => byId cfg.id)
  | ContentType.text => cfgList.filterMap (fun cfg => byId cfg.id)

/-- `shaka.player.StreamVideoSource.prototype.selectConfigurations`:
when the source is not loaded it logs a warning and returns with no
effect; otherwise it rebuilds `streamSetsByType` from the configs,
sorts the audio and text sets by language preference and computes
`subsNeeded_`. -/
def selectConfigurations (m : LangMatcher) (st : SourceState)
    (configs : List (ContentType × List Config)) : SourceState :=
  if !st.loaded then st
  else
    let byId := streamSetById (period0Sets st)
    let built : ContentType → List StreamSetInfo := fun t =>
      (configs.filter (fun p => p.1 == t)).flatMap (fun p => setsForType byId p.1 p.2)
    let audioSets := sortByLanguage m st.lang (built ContentType.audio)
    let textSets := sortByLanguage m st.lang (built ContentType.text)
    let subsAfterAudio :=
      match audioSets with
      | [] => true
      | a :: _ =>
        let lang := if a.lang == "" then st.lang else a.lang
        !(m.fuzzMatch m.maxLevel st.lang lang)
    let subs :=
      match textSets with
      | [] => subsAfterAudio
      | x :: _ =>
        let lang := if x.lang == "" then st.lang else x.lang
        if !(m.fuzzMatch m.maxLevel st.lang lang) then false else subsAfterAudio
    { st with
      streamSetsByType := fun t =>
        match t with
        | ContentType.audio => audioSets
        | ContentType.text => textSets
        | _ => built t,
      subsNeeded := subs }

/-- The `enabled` recomputation done for every `StreamInfo` by
`setRestrictions`: start from `true` and clear on each violated,
truthy restriction (`null` width/height compare as `0`). -/
def restrictStreamInfo (r : Restrictions) (si : StreamInfo) : StreamInfo :=
  let e0 := true
  let e1 :=
    if truthy r.maxWidth && decide ((si.width.getD 0) > r.maxWidth.getD 0) then false else e0
  let e2 :=
    if truthy r.maxHeight && decide ((si.height.getD 0) > r.maxHeight.getD 0) then false else e1
  let e3 :=
    if truthy r.maxBandwidth && decide (si.bandwidth > r.maxBandwidth.getD 0) then false else e2
  let e4 :=
    if truthy r.minBandwidth && decide (si.bandwidth < r.minBandwidth.getD 0) then false else e3
  { si with enabled := e4 }

/-- `shaka.player.StreamVideoSource.prototype.setRestrictions`: when
the source is not loaded it logs a warning and returns with no effect;
otherwise it caches the restrictions and recomputes `enabled` for every
`StreamInfo` of every period. (The source mutates the very objects also
held by `streamSetsByType`; aliasing is outside this embedding and no
claim observes it.) -/
def setRestrictions (st : SourceState) (r : Restrictions) : SourceState :=
  if !st.loaded then st
  else
    let mi :=
      match st.manifestInfo with
      | none => none
      | some mi =>
        some
          { mi with
            periodInfos := mi.periodInfos.map (fun p =>
              { p with
                streamSetInfos := p.streamSetInfos.map (fun ss =>
                  { ss with streamInfos := ss.streamInfos.map (restrictStreamInfo r) }) }) }
    { st with cachedRestrictions := some r, manifestInfo := mi }

/-! Initial stream selection (`createAndStartStreams_`,
`selectStreamInfos_`). -/

/-- The video branch of `selectStreamInfos_`: the loop walks the set's
`streamInfos`, stopping at the first one whose `uniqueId` equals the
ABR manager's initial track id; when none matches, the loop leaves the
last element selected. -/
def findVideoStreamInfo (trackId : ℕ) : List StreamInfo → StreamInfo
  | [] => default
  | si :: rest =>
    if si.uniqueId == trackId then si
    else if rest.isEmpty then si
    else findVideoStreamInfo trackId rest

/-- The per-set choice of `selectStreamInfos_`: the ABR-selected info
for video, the middle (`Math.floor(n / 2)`) info for audio, and the
first info otherwise. -/
def selectStreamInfo (abrTrackId : ℕ) (ssi : StreamSetInfo) : StreamInfo :=
  match ssi.contentType with
  | ContentType.video => findVideoStreamInfo abrTrackId ssi.streamInfos
  | ContentType.audio => ssi.streamInfos.getD (ssi.streamInfos.length / 2) default
  | ContentType.text => ssi.streamInfos.headI

/-- The first half of `createAndStartStreams_`: for each desired type
(audio, video, text, in that order) that has stream sets, take the
first `StreamSetInfo`. -/
def selectedStreamSets (byType : ContentType → List StreamSetInfo) : List StreamSetInfo :=
  [ContentType.audio, ContentType.video, ContentType.text].filterMap
    (fun t => (byType t).head?)

/-- `selectStreamInfos_` builds `selectedStreamInfosByType`, a plain
object keyed by content type; later entries overwrite earlier ones, as
JavaScript property assignment does. -/
def selectStreamInfosByType (abrTrackId : ℕ) (ssis : List StreamSetInfo) :
    List (ContentType × StreamInfo) :=
  ssis.map (fun ssi => (ssi.contentType, selectStreamInfo abrTrackId ssi))

/-- Reading a key of the object built by `selectStreamInfosByType`: the
last assignment wins. -/
def lookupType (l : List (ContentType × StreamInfo)) (t : ContentType) :
    Option StreamInfo :=
  (l.reverse.find? (fun p => p.1 == t)).map Prod.snd

/-! Update timer (`setUpdateTimer_`, `onUpdateManifest_`) and the
failure handling of `createAndStartStreams_`. -/

/-- `shaka.player.StreamVideoSource.MIN_UPDATE_INTERVAL_`: the minimum
time, in seconds, between manifest fetches. -/
def minUpdateInterval : ℚ := 3

/-- `shaka.player.StreamVideoSource.prototype.setUpdateTimer_`: does
nothing when the manifest specifies no update period; otherwise arms a
one-shot timer after `max(updatePeriod - offset, MIN_UPDATE_INTERVAL_)`
seconds. Returns the armed delay. -/
def setUpdateTimerDelay (updatePeriod : Option ℚ) (offset : ℚ) : Option ℚ :=
  match updatePeriod with
  | none => none
  | some p => some (max (p - offset) minUpdateInterval)

/-- Errors flowing into the `catch` of `createAndStartStreams_`,
distinguished by `error.type`/message as in the source. -/
inductive StreamError where
  | aborted
  | streamsNotAvailable
  | createStreamsFailed
  deriving Repr, DecidableEq

/-- Outcome of `createAndStartStreams_` as observed by its caller: the
promise resolves (possibly after arming the update timer with the given
delay) or rejects with an error. -/
inductive StartStreamsOutcome where
  | resolved (retryDelay : Option ℚ)
  | rejected (e : StreamError)
  deriving Repr, DecidableEq

/-- The `catch` handler of `createAndStartStreams_`: an aborted error
is swallowed (the promise resolves, no timer); any other error on a
live manifest is suppressed and `setUpdateTimer_(0)` is called; on a
static manifest the error is re-thrown (the promise rejects). -/
def handleStartFailure (live : Bool) (updatePeriod : Option ℚ)
    (e : StreamError) : StartStreamsOutcome :=
  if e = StreamError.aborted then StartStreamsOutcome.resolved none
  else if live then StartStreamsOutcome.resolved (setUpdateTimerDelay updatePeriod 0)
  else StartStreamsOutcome.rejected e

/-! `shaka.dash.DurationSegmentIndexSource` (template + duration). -/

/-- A DASH segment reference produced from a template: its 1-based
number and its time range. -/
structure DashSegmentReference where
  number : ℕ
  startTime : ℚ
  endTime : ℚ
  deriving Repr, DecidableEq

/-- Modelled from the spec: `shaka.dash.MpdUtils.generateSegmentReferences`
is not among the given sources. Per the spec (§4.3, template +
duration) it generates the requested count of consecutive references
starting at the given segment number, each spanning one scaled segment
duration. -/
def generateSegmentReferences (scaledSegmentDuration : ℚ)
    (firstNumber count : ℕ) : List DashSegmentReference :=
  (List.range count).map (fun i =>
    { number := firstNumber + i,
      startTime := (firstNumber + i - 1 : ℚ) * scaledSegmentDuration,
      endTime := (firstNumber + i : ℚ) * scaledSegmentDuration })

/-- The static (non-dynamic) branch of
`shaka.dash.DurationSegmentIndexSource.prototype.create`: scale the
segment duration by the timescale and generate
`Math.ceil(period.duration / scaledSegmentDuration)` references
starting at number 1. -/
def durationCreate (periodDuration segmentDuration timescale : ℚ) :
    List DashSegmentReference :=
  let scaledSegmentDuration := segmentDuration / timescale
  let numSegments := ⌈periodDuration / scaledSegmentDuration⌉.toNat
  generateSegmentReferences scaledSegmentDuration 1 numSegments

/-- The caching wrapper of
`shaka.dash.DurationSegmentIndexSource.prototype.create`: when
`segmentIndex_` is set, resolve with it immediately; otherwise run the
construction (`build`), store its result in `segmentIndex_` on success,
and resolve with it; on failure reject and leave the cache empty.
Returns the new cache and the settled promise. -/
def sourceCreate {α : Type} (build : Except StreamError α) (cache : Option α) :
    Option α × Except StreamError α :=
  match cache with
  | some idx => (some idx, Except.ok idx)
  | none =>
    match build with
    | Except.ok idx => (some idx, Except.ok idx)
    | Except.error e => (none, Except.error e)

/-! Concrete instances used to evaluate the theorems on explicit
inputs. -/

/-- A concrete audio representation whose `enabled` flag has been
cleared by restrictions. -/
def restrictedAudioInfo : StreamInfo :=
  { uniqueId := 7, bandwidth := 128000, width := none, height := none,
    fullMimeType := "audio/mp4", enabled := false }

/-- A concrete audio stream set holding only `restrictedAudioInfo`. -/
def restrictedAudioSet : StreamSetInfo :=
  { uniqueId := 1, contentType := ContentType.audio, lang := "en", main := false,
    streamInfos := [restrictedAudioInfo] }

/-- A concrete playable video representation. -/
def sampleStreamInfo : StreamInfo :=
  { uniqueId := 11, bandwidth := 1000000, width := some 1280, height := some 720,
    fullMimeType := "video/mp4", enabled := true }

/-- A concrete playable video stream set. -/
def sampleVideoSet : StreamSetInfo :=
  { uniqueId := 2, contentType := ContentType.video, lang := "", main := false,
    streamInfos := [sampleStreamInfo] }

/-- A static manifest whose first period has no stream sets while its
second period has a playable one. -/
def emptyFirstPeriodManifest : ManifestInfo :=
  { live := false, minBufferTime := 0, updatePeriod := none,
    periodInfos := [{ duration := some 60, streamSetInfos := [] },
                    { duration := some 60, streamSetInfos := [sampleVideoSet] }] }

/-- A source that has not been loaded yet, owning the given manifest. -/
def unloadedState (mi : Option ManifestInfo) : SourceState :=
  { loaded := false, lang := "", manifestInfo := mi,
    streamSetsByType := fun _ => [], subsNeeded := false,
    cachedRestrictions := none }

/-- A loadable static manifest with a single playable period. -/
def loadableManifest : ManifestInfo :=
  { live := false, minBufferTime := 0, updatePeriod := none,
    periodInfos := [{ duration := some 60, streamSetInfos := [sampleVideoSet] }] }

/-- The state produced by a successful `load` of `loadableManifest`
with preferred language `en` and an accept-all support predicate. -/
def loadedSampleState : SourceState :=
  { unloadedState (some loadableManifest) with
    loaded := true, lang := "en",
    manifestInfo :=
      some { loadableManifest with
             periodInfos :=
               processPeriods (fun _ => true) loadableManifest.periodInfos } }

/-- A language matcher that never matches. -/
def noOpMatcher : LangMatcher :=
  { fuzzMatch := fun _ _ _ => false, minLevel := 0, maxLevel := 1 }

/-- Restrictions with every field absent. -/
def emptyRestrictions : Restrictions :=
  { maxWidth := none, maxHeight := none, maxBandwidth := none,
    minBandwidth := none }

/-- Three concrete audio representations (ids 21, 22, 23). -/
def sampleAudioInfos : List StreamInfo :=
  [{ uniqueId := 21, bandwidth := 64000, width := none, height := none,
     fullMimeType := "audio/mp4", enabled := true },
   { uniqueId := 22, bandwidth := 128000, width := none, height := none,
     fullMimeType := "audio/mp4", enabled := true },
   { uniqueId := 23, bandwidth := 256000, width := none, height := none,
     fullMimeType := "audio/mp4", enabled := true }]

/-- Two concrete video representations (ids 11, 12). -/
def sampleVideoInfos : List StreamInfo :=
  [sampleStreamInfo,
   { uniqueId := 12, bandwidth := 3000000, width := some 1920, height := some 1080,
     fullMimeType := "video/mp4", enabled := true }]

/-- One concrete text representation (id 31). -/
def sampleTextInfos : List StreamInfo :=
  [{ uniqueId := 31, bandwidth := 0, width := none, height := none,
     fullMimeType := "text/vtt", enabled := true }]

/-- A concrete `streamSetsByType` map with one stream set per type. -/
def sampleSetsByType : ContentType → List StreamSetInfo := fun t =>
  match t with
  | ContentType.audio =>
    [{ uniqueId := 3, contentType := ContentType.audio, lang := "en", main := false,
       streamInfos := sampleAudioInfos }]
  | ContentType.video =>
    [{ uniqueId := 4, contentType := ContentType.video, lang := "", main := false,
       streamInfos := sampleVideoInfos }]
  | ContentType.text =>
    [{ uniqueId := 5, contentType := ContentType.text, lang := "en", main := false,
       streamInfos := sampleTextInfos }]

lemma streamLimitsStep_nonempty (live : Bool) (mbt a : ℚ) (b : Option ℚ)
    (idx : SegmentIndex) (h : idx ≠ []) :
    streamLimitsStep live mbt (a, b) idx =
      (max a (firstStartTime idx), minOpt b (endContrib live mbt idx)) := by
  have hh : idx.head? = some (idx.head h) := List.head?_eq_head h
  have hl : idx.getLast? = some (idx.getLast h) := List.getLast?_eq_getLast idx h
  unfold streamLimitsStep firstStartTime endContrib lastStartTime lastEndTime
  rw [hh, hl]
  cases live with
  | true => simp
  | false =>
    cases he : (idx.getLast h).endTime with
    | none =>
      simp only [he]
      cases b <;> simp [minOpt]
    | some e => simp [he]

lemma foldl_streamLimitsStep (live : Bool) (mbt : ℚ) (idxs : List SegmentIndex)
    (h : ∀ idx ∈ idxs, idx ≠ []) (a : ℚ) (b : Option ℚ) :
    idxs.foldl (streamLimitsStep live mbt) (a, b) =
      (idxs.foldl (fun acc idx => max acc (firstStartTime idx)) a,
       idxs.foldl (fun acc idx => minOpt acc (endContrib live mbt idx)) b) := by
  induction idxs generalizing a b with
  | nil => rfl
  | cons i is ih =>
    have hi : i ≠ [] := h i (List.mem_cons_self i is)
    have his : ∀ idx ∈ is, idx ≠ [] := fun idx hm => h idx (List.mem_cons_of_mem i hm)
    simp only [List.foldl_cons, streamLimitsStep_nonempty live mbt a b i hi]
    exact ih his _ _

lemma foldl_max_max (l : List ℚ) (a b : ℚ) :
    l.foldl max (max a b) = max a (l.foldl max b) := by
  induction l generalizing b with
  | nil => rfl
  | cons x xs ih =>
    simp only [List.foldl_cons, max_assoc]
    exact ih (max b x)

lemma le_foldl_max (l : List ℚ) (a : ℚ) : a ≤ l.foldl max a := by
  induction l generalizing a with
  | nil => exact le_refl a
  | cons x xs ih => exact le_trans (le_max_left a x) (ih (max a x))

lemma foldl_max_zero (l : List ℚ) (hne : l ≠ []) (hpos : 0 ≤ l.headI) :
    l.foldl max 0 = maxList l := by
  cases l with
  | nil => exact absurd rfl hne
  | cons x xs =>
    have h1 : (x :: xs).foldl max 0 = max 0 (xs.foldl max x) := by
      simp only [List.foldl_cons]
      exact foldl_max_max xs 0 x
    have h2 : (0 : ℚ) ≤ xs.foldl max x := le_trans hpos (le_foldl_max xs x)
    rw [h1, max_eq_right h2]
    rfl

lemma foldl_minOpt_some (c : ℚ) (l : List (Option ℚ)) :
    l.foldl minOpt (some c) = some ((l.filterMap id).foldl min c) := by
  induction l generalizing c with
  | nil => rfl
  | cons x xs ih =>
    cases x with
    | none => simpa [minOpt] using ih c
    | some v => simpa [minOpt] using ih (min c v)

lemma filterMap_some_eq_map {α β : Type} (f : α → β) (l : List α) :
    l.filterMap (fun a => some (f a)) = l.map f := by
  induction l with
  | nil => rfl
  | cons x xs ih => simp [List.filterMap_cons, ih]

lemma foldl_minOpt_none (l : List (Option ℚ)) :
    l.foldl minOpt none =
      match l.filterMap id with
      | [] => none
      | e :: es => some (es.foldl min e) := by
  induction l with
  | nil => rfl
  | cons x xs ih =>
    cases x with
    | none => simpa [minOpt] using ih
    | some v => simp [minOpt, foldl_minOpt_some]

/-- Claim C1 (counterexample): `computeStreamLimits` does not return
null whenever some index is empty: on a single empty index (static
manifest) it returns the window `{start: 0, end: 0}`, because the loop
resets both accumulators to `0` and continues instead of failing. -/
theorem computeStreamLimits_empty_index_counterexample :
    computeStreamLimits false 0 none [([] : SegmentIndex)] = some (0, 0) ∧
    computeStreamLimits false 0 none [([] : SegmentIndex)] ≠ none := by
  refine ⟨rfl, ?_⟩
  intro h
  simp [computeStreamLimits, streamLimitsStep] at h

/-- Claim C1 (amended): provided every index is nonempty (the caller
checks this before invoking the computation) and every index's first
reference has a nonnegative start time, the play-window computation
returns `{start, end}` with `start` the maximum over all indices of the
first reference's start time, and `end` equal, for live manifests, to
the minimum over all indices of `max(0, last start time − min buffer
time)` and, for static manifests, to the minimum of the last
references' end times with the first period's duration as fallback when
every end time is null (failing when the fallback duration is absent or
zero); it returns null exactly when the end is undeterminable or
`start > end`. An empty index resets the accumulated window to zero and
does not by itself yield null. -/
theorem computeStreamLimits_characterization (live : Bool) (mbt : ℚ)
    (pd : Option ℚ) (idxs : List SegmentIndex)
    (hne : idxs ≠ [])
    (hall : ∀ idx ∈ idxs, idx ≠ [])
    (hpos : ∀ idx ∈ idxs, 0 ≤ firstStartTime idx) :
    computeStreamLimits live mbt pd idxs =
      match (if live then some (specWindowEndLive mbt idxs)
             else specWindowEndStatic pd idxs) with
      | none => none
      | some e =>
        if specWindowStart idxs > e then none
        else some (specWindowStart idxs, e) := by
  have hmapne : idxs.map firstStartTime ≠ [] := by
    intro h
    exact hne (List.map_eq_nil_iff.mp h)
  have hheadpos : 0 ≤ (idxs.map firstStartTime).headI := by
    cases idxs with
    | nil => exact absurd rfl hne
    | cons i is => exact hpos i (List.mem_cons_self i is)
  have hstart :
      idxs.foldl (fun acc idx => max acc (firstStartTime idx)) 0 =
        specWindowStart idxs := by
    have h1 : idxs.foldl (fun acc idx => max acc (firstStartTime idx)) 0 =
        (idxs.map firstStartTime).foldl max 0 := by
      rw [List.foldl_map]
    rw [h1, foldl_max_zero _ hmapne hheadpos]
    rfl
  have hfold := foldl_streamLimitsStep live mbt idxs hall 0 none
  unfold computeStreamLimits
  rw [hfold]
  cases live with
  | true =>
    -- live: every contribution is `some`, so the fold is the plain minimum
    cases idxs with
    | nil => exact absurd rfl hne
    | cons i is =>
      have hcontrib :
          (i :: is).foldl (fun acc idx => minOpt acc (endContrib true mbt idx)) none =
            some (specWindowEndLive mbt (i :: is)) := by
        have h1 : (i :: is).foldl (fun acc idx => minOpt acc (endContrib true mbt idx)) none =
            ((i :: is).map (endContrib true mbt)).foldl minOpt none := by
          rw [List.foldl_map]
        rw [h1]
        simp only [endContrib, if_pos rfl, List.map_cons, List.foldl_cons]
        show (is.map fun idx => some (max 0 (lastStartTime idx - mbt))).foldl minOpt
              (minOpt none (some (max 0 (lastStartTime i - mbt)))) = _
        have h2 : minOpt none (some (max 0 (lastStartTime i - mbt))) =
            some (max 0 (lastStartTime i - mbt)) := rfl
        rw [h2, foldl_minOpt_some]
        have h3 : ((is.map fun idx => some (max 0 (lastStartTime idx - mbt))).filterMap id) =
            is.map fun idx => max 0 (lastStartTime idx - mbt) := by
          simp [List.filterMap_map, Function.comp, filterMap_some_eq_map]
        rw [h3]
        rfl
      rw [hcontrib]
      simp [hstart]
  | false =>
    have hcontrib :
        idxs.foldl (fun acc idx => minOpt acc (endContrib false mbt idx)) none =
          match idxs.filterMap lastEndTime with
          | [] => none
          | e :: es => some (es.foldl min e) := by
      have h1 : idxs.foldl (fun acc idx => minOpt acc (endContrib false mbt idx)) none =
          (idxs.map (endContrib false mbt)).foldl minOpt none := by
        rw [List.foldl_map]
      rw [h1, foldl_minOpt_none]
      have hec : endContrib false mbt = lastEndTime := by
        funext idx
        simp [endContrib]
      have h2 : (idxs.map (endContrib false mbt)).filterMap id =
          idxs.filterMap lastEndTime := by
        rw [List.filterMap_map, hec]
        simp [Function.comp]
      rw [h2]
    rw [hcontrib]
    unfold specWindowEndStatic
    cases hfm : idxs.filterMap lastEndTime with
    | nil =>
      simp only [hstart]
      cases pd with
      | none => rfl
      | some d =>
        by_cases hd : d = 0
        · simp [hd]
        · simp [hd]
    | cons e es =>
      simp only [hstart]
      rfl

/-- Claim C1 (witness): the characterization evaluated on one concrete
static manifest with a single one-segment index. -/
theorem computeStreamLimits_characterization_witness :
    computeStreamLimits false 0 none [[⟨0, some 10⟩]] =
      match (if false then some (specWindowEndLive 0 [[⟨0, some 10⟩]])
             else specWindowEndStatic none [[⟨0, some 10⟩]]) with
      | none => none
      | some e =>
        if specWindowStart [[⟨0, some 10⟩]] > e then none
        else some (specWindowStart [[⟨0, some 10⟩]], e) :=
  computeStreamLimits_characterization false 0 none [[⟨0, some 10⟩]]
    (by simp) (by simp) (by intro idx h; simp at h; simp [h, firstStartTime])

lemma videoTracksOfInfos_map_id (aid : ℕ) (l : List StreamInfo) :
    (videoTracksOfInfos aid l).map VideoTrack.id =
      ((l.filter fun si => si.enabled).map StreamInfo.uniqueId) := by
  induction l with
  | nil => rfl
  | cons si rest ih =>
    by_cases h : si.enabled
    · simp [videoTracksOfInfos, h, ih]
    · simp [videoTracksOfInfos, h, ih]

lemma video_ids_flatten (aid : ℕ) (sets : List StreamSetInfo) :
    ((sets.map (fun ss => videoTracksOfInfos aid ss.streamInfos)).flatten).map VideoTrack.id =
      ((sets.flatMap StreamSetInfo.streamInfos).filter fun si => si.enabled).map
        StreamInfo.uniqueId := by
  induction sets with
  | nil => rfl
  | cons s ss ih =>
    simp only [List.map_cons, List.flatten_cons, List.flatMap_cons, List.filter_append,
      List.map_append, ih, videoTracksOfInfos_map_id]

lemma audio_ids_flatten (aid : ℕ) (sets : List StreamSetInfo) :
    ((sets.map (audioTracksOfSet aid)).flatten).map AudioTrack.id =
      (sets.flatMap StreamSetInfo.streamInfos).map StreamInfo.uniqueId := by
  induction sets with
  | nil => rfl
  | cons s ss ih =>
    simp only [List.map_cons, List.flatten_cons, List.flatMap_cons, List.map_append, ih,
      audioTracksOfSet, List.map_map]
    rfl

lemma text_ids_flatten (aid : ℕ) (td : Bool) (sets : List StreamSetInfo) :
    ((sets.map (textTracksOfSet aid td)).flatten).map TextTrack.id =
      (sets.flatMap StreamSetInfo.streamInfos).map StreamInfo.uniqueId := by
  induction sets with
  | nil => rfl
  | cons s ss ih =>
    simp only [List.map_cons, List.flatten_cons, List.flatMap_cons, List.map_append, ih,
      textTracksOfSet, List.map_map]
    rfl

lemma videoTracksOfInfos_active (aid : ℕ) (l : List StreamInfo) :
    ∀ t ∈ videoTracksOfInfos aid l, t.active = (t.id == aid) := by
  induction l with
  | nil => intro t ht; simp [videoTracksOfInfos] at ht
  | cons si rest ih =>
    intro t ht
    by_cases h : si.enabled
    · simp only [videoTracksOfInfos, h, Bool.not_true, Bool.false_eq_true, if_false,
        List.mem_cons] at ht
      rcases ht with rfl | ht
      · rfl
      · exact ih t ht
    · simp only [videoTracksOfInfos, h] at ht
      exact ih t ht

/-- Claim C2 (counterexample): a `StreamInfo` with `enabled = false`
does appear in a track listing: `getAudioTracks` (like `getTextTracks`)
performs no `enabled` filtering, so the disabled representation with
unique id 7 is listed. Only `getVideoTracks` filters by `enabled`. -/
theorem getAudioTracks_lists_disabled_counterexample :
    (getAudioTracks [restrictedAudioSet] none).map AudioTrack.id = [7] ∧
    ∀ si ∈ restrictedAudioSet.streamInfos, si.enabled = false := by
  constructor
  · rfl
  · intro si hsi
    simp [restrictedAudioSet] at hsi
    rw [hsi]
    rfl

/-- Claim C2 (amended): `getVideoTracks` returns exactly the
`StreamInfo`s of the video stream sets whose `enabled` flag is true,
while `getAudioTracks` and `getTextTracks` return every `StreamInfo` of
their stream sets regardless of `enabled`; in every listing, a track
whose unique id equals the currently playing `StreamInfo`'s unique id
is flagged active. -/
theorem tracks_listing_characterization (sets : List StreamSetInfo)
    (act : Option StreamInfo) (td : Bool) :
    ((getVideoTracks sets act).map VideoTrack.id =
      ((sets.flatMap StreamSetInfo.streamInfos).filter fun si => si.enabled).map
        StreamInfo.uniqueId) ∧
    ((getAudioTracks sets act).map AudioTrack.id =
      (sets.flatMap StreamSetInfo.streamInfos).map StreamInfo.uniqueId) ∧
    ((getTextTracks sets act td).map TextTrack.id =
      (sets.flatMap StreamSetInfo.streamInfos).map StreamInfo.uniqueId) ∧
    (∀ si, act = some si →
      ∀ t ∈ getVideoTracks sets act, t.id = si.uniqueId → t.active = true) ∧
    (∀ si, act = some si →
      ∀ t ∈ getAudioTracks sets act, t.id = si.uniqueId → t.active = true) ∧
    (∀ si, act = some si →
      ∀ t ∈ getTextTracks sets act td, t.id = si.uniqueId → t.active = true) := by
  by_cases hempty : sets.isEmpty
  · refine ⟨?_, ?_, ?_, ?_, ?_, ?_⟩ <;>
      simp_all [getVideoTracks, getAudioTracks, getTextTracks, List.isEmpty_iff]
  · refine ⟨?_, ?_, ?_, ?_, ?_, ?_⟩
    · simp only [getVideoTracks, hempty, Bool.false_eq_true, if_false]
      exact video_ids_flatten _ sets
    · simp only [getAudioTracks, hempty, Bool.false_eq_true, if_false]
      exact audio_ids_flatten _ sets
    · simp only [getTextTracks, hempty, Bool.false_eq_true, if_false]
      exact text_ids_flatten _ _ sets
    · intro si hact t ht htid
      simp only [getVideoTracks, hempty, Bool.false_eq_true, if_false, List.mem_flatten] at ht
      obtain ⟨l, hl, htl⟩ := ht
      simp only [List.mem_map] at hl
      obtain ⟨ss, hss, rfl⟩ := hl
      have := videoTracksOfInfos_active (activeTrackId act) ss.streamInfos t htl
      rw [this, htid, hact]
      simp [activeTrackId]
    · intro si hact t ht htid
      simp only [getAudioTracks, hempty, Bool.false_eq_true, if_false, List.mem_flatten] at ht
      obtain ⟨l, hl, htl⟩ := ht
      simp only [List.mem_map] at hl
      obtain ⟨ss, hss, rfl⟩ := hl
      simp only [audioTracksOfSet, List.mem_map] at htl
      obtain ⟨s, hs, rfl⟩ := htl
      subst hact
      simp only at htid
      simp [activeTrackId, htid]
    · intro si hact t ht htid
      simp only [getTextTracks, hempty, Bool.false_eq_true, if_false, List.mem_flatten] at ht
      obtain ⟨l, hl, htl⟩ := ht
      simp only [List.mem_map] at hl
      obtain ⟨ss, hss, rfl⟩ := hl
      simp only [textTracksOfSet, List.mem_map] at htl
      obtain ⟨s, hs, rfl⟩ := htl
      subst hact
      simp only at htid
      simp [activeTrackId, htid]


/-- Claim C4 (counterexample): on a live manifest with
`updatePeriod = 10`, a `StreamsNotAvailable` failure of the initial
stream start is suppressed, but the retry timer is armed with a 10 s
delay — not within 3 seconds — and with no update period specified no
retry timer is armed at all. -/
theorem handleStartFailure_counterexample :
    handleStartFailure true (some 10) StreamError.streamsNotAvailable =
      StartStreamsOutcome.resolved (some 10) ∧
    ¬((10 : ℚ) ≤ 3) ∧
    handleStartFailure true none StreamError.streamsNotAvailable =
      StartStreamsOutcome.resolved none := by
  have hd : setUpdateTimerDelay (some 10) 0 = some 10 := by
    show some (max ((10 : ℚ) - 0) 3) = some 10
    rw [max_eq_left (by norm_num : (3 : ℚ) ≤ 10 - 0)]
    norm_num
  refine ⟨by simp [handleStartFailure, hd], by norm_num, rfl⟩

/-- Claim C4 (amended): when the initial stream start fails, an Aborted
failure is swallowed in both cases (the promise resolves, no timer); a
non-aborted failure on a static manifest is surfaced (the promise
rejects with it); on a live manifest it is suppressed and, when the
manifest specifies an update period, the update timer is armed with
delay `max(update_period, 3 s)` — hence at least 3 seconds, and no
timer at all when no update period is specified. -/
theorem handleStartFailure_characterization (live : Bool) (up : Option ℚ)
    (e : StreamError) :
    handleStartFailure live up StreamError.aborted =
      StartStreamsOutcome.resolved none ∧
    (e ≠ StreamError.aborted →
      handleStartFailure false up e = StartStreamsOutcome.rejected e) ∧
    (e ≠ StreamError.aborted →
      handleStartFailure true up e =
        StartStreamsOutcome.resolved (setUpdateTimerDelay up 0)) ∧
    (∀ p d, setUpdateTimerDelay (some p) 0 = some d → minUpdateInterval ≤ d) := by
  refine ⟨by simp [handleStartFailure], ?_, ?_, ?_⟩
  · intro he
    simp [handleStartFailure, he]
  · intro he
    simp [handleStartFailure, he]
  · intro p d hd
    simp only [setUpdateTimerDelay, Option.some.injEq] at hd
    rw [← hd]
    exact le_max_right _ _

/-- Claim C4 (witness): the amended behaviour on a concrete
`StreamsNotAvailable` failure, static and live. -/
theorem handleStartFailure_characterization_witness :
    handleStartFailure false (some 5) StreamError.streamsNotAvailable =
      StartStreamsOutcome.rejected StreamError.streamsNotAvailable ∧
    handleStartFailure true (some 5) StreamError.streamsNotAvailable =
      StartStreamsOutcome.resolved (setUpdateTimerDelay (some 5) 0) :=
  ⟨(handleStartFailure_characterization false (some 5)
      StreamError.streamsNotAvailable).2.1 (by decide),
   (handleStartFailure_characterization true (some 5)
      StreamError.streamsNotAvailable).2.2.1 (by decide)⟩

/-- Claim C6: whenever the manifest specifies an update period, the
one-shot manifest-update timer is armed with delay
`max(update_period − elapsed, 3 s)`, where the caller
`onUpdateManifest_` passes as offset the seconds just spent updating;
when no update period is specified, no timer is armed; any armed delay
is at least `MIN_UPDATE_INTERVAL_ = 3` seconds and at least
`update_period − elapsed`. -/
theorem setUpdateTimer_delay (p elapsed : ℚ) :
    setUpdateTimerDelay (some p) elapsed = some (max (p - elapsed) 3) ∧
    setUpdateTimerDelay none elapsed = none ∧
    minUpdateInterval = 3 ∧
    (∀ d, setUpdateTimerDelay (some p) elapsed = some d →
      3 ≤ d ∧ p - elapsed ≤ d) := by
  refine ⟨rfl, rfl, rfl, ?_⟩
  intro d hd
  simp only [setUpdateTimerDelay, Option.some.injEq] at hd
  rw [← hd]
  exact ⟨le_max_right _ _, le_max_left _ _⟩

/-- Claim C6 (witness): the timer formula evaluated at
`update_period = 10`, `elapsed = 2`. -/
theorem setUpdateTimer_delay_witness :
    (3 : ℚ) ≤ 8 ∧ (10 - 2 : ℚ) ≤ 8 := by
  have h : setUpdateTimerDelay (some 10) 2 = some 8 := by
    show some (max ((10 : ℚ) - 2) 3) = some 8
    rw [max_eq_left (by norm_num : (3 : ℚ) ≤ 10 - 2)]
    norm_num
  exact (setUpdateTimer_delay 10 2).2.2.2 8 h

/-- Claim C7: for a static (non-dynamic) manifest, the
template+duration segment index source generates exactly
`⌈period.duration / (segmentDuration / timescale)⌉` segment
references, numbered consecutively starting at 1. -/
theorem durationCreate_count (periodDuration segmentDuration timescale : ℚ) :
    (durationCreate periodDuration segmentDuration timescale).length =
      (⌈periodDuration / (segmentDuration / timescale)⌉).toNat ∧
    (durationCreate periodDuration segmentDuration timescale).map
        DashSegmentReference.number =
      (List.range (⌈periodDuration / (segmentDuration / timescale)⌉).toNat).map
        (fun i => i + 1) := by
  constructor
  · simp [durationCreate, generateSegmentReferences]
  · simp only [durationCreate, generateSegmentReferences, List.map_map]
    refine List.map_congr_left ?_
    intro i hi
    simp [Nat.add_comm]

/-- Claim C8: `create()` on a segment index source is cached and
idempotent: a successful first call stores the built `SegmentIndex` in
the cache and resolves with it, and every later call — even with a
different (or failing) construction — resolves with the very same
index and leaves the cache untouched. -/
theorem sourceCreate_cached {α : Type} (build build2 : Except StreamError α)
    (idx : α) (h : sourceCreate build none = (some idx, Except.ok idx)) :
    sourceCreate build2 (some idx) = (some idx, Except.ok idx) ∧
    build = Except.ok idx := by
  refine ⟨rfl, ?_⟩
  cases build with
  | ok v =>
    simp only [sourceCreate, Prod.mk.injEq, Option.some.injEq] at h
    rw [h.1]
  | error e => simp [sourceCreate] at h

/-- Claim C8 (witness): a duration-source index built once is returned
unchanged by a second `create()` whose construction would fail. -/
theorem sourceCreate_cached_witness :
    sourceCreate (Except.error StreamError.streamsNotAvailable)
        (some (durationCreate 10 1 1)) =
      (some (durationCreate 10 1 1), Except.ok (durationCreate 10 1 1)) ∧
    Except.ok (durationCreate 10 1 1) =
      (Except.ok (durationCreate 10 1 1) : Except StreamError (List DashSegmentReference)) :=
  sourceCreate_cached (Except.ok (durationCreate 10 1 1))
    (Except.error StreamError.streamsNotAvailable) (durationCreate 10 1 1) rfl


lemma promoteFirst_decomp {α : Type} (p : α → Bool) (l r : List α)
    (h : promoteFirst p l = some r) :
    ∃ pre x suf, l = pre ++ x :: suf ∧ p x = true ∧ r = x :: (pre ++ suf) := by
  unfold promoteFirst at h
  cases hd : l.dropWhile (fun a => !p a) with
  | nil => rw [hd] at h; exact absurd h (by simp)
  | cons x rest =>
    rw [hd] at h
    simp only [Option.some.injEq] at h
    have hpx : p x = true := by
      have hfind : l.find? p = some x := by
        rw [List.find?_eq_head?_dropWhile_not, hd]
        rfl
      exact List.find?_some hfind
    refine ⟨l.takeWhile (fun a => !p a), x, rest, ?_, hpx, h.symm⟩
    conv_lhs => rw [← List.takeWhile_append_dropWhile (p := fun a => !p a) (l := l)]
    rw [hd]

lemma promoteByLevels_decomp (pred : ℕ → StreamSetInfo → Bool) (lvs : List ℕ)
    (sets r : List StreamSetInfo) (h : promoteByLevels pred lvs sets = some r) :
    ∃ pre x suf, sets = pre ++ x :: suf ∧ r = x :: (pre ++ suf) := by
  induction lvs with
  | nil => simp [promoteByLevels] at h
  | cons lv lvs ih =>
    unfold promoteByLevels at h
    cases hp : promoteFirst (pred lv) sets with
    | some r0 =>
      rw [hp] at h
      simp only [Option.some.injEq] at h
      obtain ⟨pre, x, suf, h1, _, h2⟩ := promoteFirst_decomp _ _ _ hp
      exact ⟨pre, x, suf, h1, h ▸ h2⟩
    | none =>
      rw [hp] at h
      exact ih h

/-- Claim C10: the language-preference reordering `sortByLanguage_` is
a permutation of its input that moves at most one stream set to the
front: either it leaves the list unchanged, or the result is one
element of the input moved to the front with the relative order of all
other sets unchanged (so no set is added, dropped or duplicated). This
holds for every language matcher. -/
theorem sortByLanguage_permutation (m : LangMatcher) (lang : String)
    (sets : List StreamSetInfo) :
    (sortByLanguage m lang sets).Perm sets ∧
    (sortByLanguage m lang sets = sets ∨
      ∃ pre x suf, sets = pre ++ x :: suf ∧
        sortByLanguage m lang sets = x :: (pre ++ suf)) := by
  unfold sortByLanguage
  cases h1 : promoteByLevels (fun lv s => m.fuzzMatch lv lang s.lang) (fuzzLevels m) sets with
  | some r =>
    obtain ⟨pre, x, suf, hs, hr⟩ := promoteByLevels_decomp _ _ _ _ h1
    refine ⟨?_, Or.inr ⟨pre, x, suf, hs, hr⟩⟩
    show r.Perm sets
    rw [hr, hs]
    exact List.perm_middle.symm
  | none =>
    cases h2 : promoteFirst (fun s => s.main) sets with
    | some r =>
      obtain ⟨pre, x, suf, hs, _, hr⟩ := promoteFirst_decomp _ _ _ h2
      refine ⟨?_, Or.inr ⟨pre, x, suf, hs, hr⟩⟩
      show r.Perm sets
      rw [hr, hs]
      exact List.perm_middle.symm
    | none => exact ⟨List.Perm.refl sets, Or.inl rfl⟩

/-- Claim C9 (counterexample): `selectConfigurations` and
`setRestrictions` called on an unloaded source do not surface any
error to the caller: they log a warning and return with the state
unchanged (while `attach` does reject). -/
theorem unloaded_silent_counterexample :
    selectConfigurations noOpMatcher (unloadedState none) [] = unloadedState none ∧
    setRestrictions (unloadedState none) emptyRestrictions = unloadedState none ∧
    attach (unloadedState none) = Except.error SourceError.notLoaded :=
  ⟨rfl, rfl, rfl⟩

/-- Claim C9 (amended): before a successful load, `attach` rejects with
the misuse error, while `selectConfigurations` and `setRestrictions`
log a warning and return with no effect on the state — they do not
surface the failure to the caller. -/
theorem notLoaded_gate_characterization (st : SourceState) (m : LangMatcher)
    (configs : List (ContentType × List Config)) (r : Restrictions)
    (h : st.loaded = false) :
    attach st = Except.error SourceError.notLoaded ∧
    selectConfigurations m st configs = st ∧
    setRestrictions st r = st := by
  refine ⟨?_, ?_, ?_⟩
  · simp [attach, h]
  · simp [selectConfigurations, h]
  · simp [setRestrictions, h]

/-- Claim C9 (witness): the gate behaviour on a concrete unloaded
source. -/
theorem notLoaded_gate_witness :
    attach (unloadedState none) = Except.error SourceError.notLoaded ∧
    selectConfigurations noOpMatcher (unloadedState none) [] = unloadedState none ∧
    setRestrictions (unloadedState none) emptyRestrictions = unloadedState none := by
  have h := notLoaded_gate_characterization (unloadedState none) noOpMatcher []
    emptyRestrictions rfl
  exact ⟨h.1, h.2.1, h.2.2⟩


/-- Claim C3 (counterexample): `load` fails with `ManifestEmpty` on a
manifest whose first period has no stream sets even though its second
period has a playable one — the check reads `periodInfos[0]` only, not
every period. -/
theorem load_first_period_counterexample :
    load (fun _ => true) (unloadedState (some emptyFirstPeriodManifest)) "en" =
      Except.error SourceError.manifestEmpty ∧
    ∃ p ∈ processPeriods (fun _ => true) emptyFirstPeriodManifest.periodInfos,
      p.streamSetInfos ≠ [] := by
  constructor
  · rfl
  · refine ⟨{ duration := some 60, streamSetInfos := [sampleVideoSet] }, ?_, by simp⟩
    simp [processPeriods, emptyFirstPeriodManifest, sampleVideoSet, sampleStreamInfo,
      List.filter]

/-- Claim C3 (amended): `load(preferred_language)` fails with
`AlreadyLoaded` exactly when called after a successful load; it fails
with the no-content error when the manifest is absent or has no
periods; it fails with `ManifestEmpty` exactly when, after manifest
processing, the manifest's first period (`periodInfos[0]`) has no
playable stream set — regardless of later periods; otherwise it records
the language, marks the source loaded and succeeds. -/
theorem load_characterization (supports : String → Bool) (st : SourceState)
    (plang : String) :
    (load supports st plang = Except.error SourceError.alreadyLoaded ↔
      st.loaded = true) ∧
    (load supports st plang = Except.error SourceError.noContent ↔
      st.loaded = false ∧
        (st.manifestInfo = none ∨
          ∃ mi, st.manifestInfo = some mi ∧ mi.periodInfos = [])) ∧
    (load supports st plang = Except.error SourceError.manifestEmpty ↔
      st.loaded = false ∧
        ∃ mi, st.manifestInfo = some mi ∧ mi.periodInfos ≠ [] ∧
          (processPeriods supports mi.periodInfos).headI.streamSetInfos = []) ∧
    (∀ st2, load supports st plang = Except.ok st2 →
      st2.loaded = true ∧ st2.lang = plang ∧ st.loaded = false) := by
  by_cases hl : st.loaded
  · refine ⟨?_, ?_, ?_, ?_⟩ <;> simp [load, hl]
  · have hlf : st.loaded = false := by simpa using hl
    cases hmi : st.manifestInfo with
    | none =>
      refine ⟨?_, ?_, ?_, ?_⟩ <;> simp [load, hl, hmi]
    | some mi =>
      cases hper : mi.periodInfos with
      | nil =>
        refine ⟨?_, ?_, ?_, ?_⟩ <;> simp [load, hl, hmi, hper]
      | cons q qs =>
        have hmper : mi.periodInfos.isEmpty = false := by rw [hper]; rfl
        have hpe : (processPeriods supports mi.periodInfos).isEmpty = false := by
          rw [hper]; rfl
        have hload : load supports st plang =
            (if (processPeriods supports mi.periodInfos).headI.streamSetInfos.isEmpty then
               Except.error SourceError.manifestEmpty
             else
               Except.ok
                 { st with
                   loaded := true, lang := plang,
                   manifestInfo :=
                     some { mi with
                            periodInfos := processPeriods supports mi.periodInfos } }) := by
          simp only [load, hl, hmi, hmper, hpe, Bool.false_eq_true, if_false, Bool.false_or]
        by_cases h0 : (processPeriods supports mi.periodInfos).headI.streamSetInfos.isEmpty
        · rw [if_pos h0] at hload
          refine ⟨?_, ?_, ?_, ?_⟩
          · rw [hload]; simp [hl]
          · rw [hload]; simp [hl, hmi, hper]
          · rw [hload]
            constructor
            · intro _
              exact ⟨hlf, mi, rfl, by rw [hper]; simp, List.isEmpty_iff.mp h0⟩
            · intro _
              rfl
          · intro st2 hst2
            rw [hload] at hst2
            exact absurd hst2 (by simp)
        · have h0f : (processPeriods supports mi.periodInfos).headI.streamSetInfos.isEmpty
              = false := by
            exact Bool.eq_false_iff.mpr h0
          rw [if_neg (by simp [h0f])] at hload
          refine ⟨?_, ?_, ?_, ?_⟩
          · rw [hload]; simp [hl]
          · rw [hload]; simp [hl, hmi, hper]
          · rw [hload]
            constructor
            · intro h
              exact absurd h (by simp)
            · rintro ⟨-, mi2, hmi2, -, hsets⟩
              have hmieq : mi2 = mi := (Option.some.inj hmi2).symm
              rw [hmieq] at hsets
              rw [List.isEmpty_iff.mpr hsets] at h0f
              exact absurd h0f (by simp)
          · intro st2 hst2
            rw [hload] at hst2
            simp only [Except.ok.injEq] at hst2
            rw [← hst2]
            exact ⟨rfl, rfl, hlf⟩

/-- Claim C3 (witness): loading a one-period playable manifest succeeds
with the language recorded and the source marked loaded. -/
theorem load_characterization_witness :
    loadedSampleState.loaded = true ∧ loadedSampleState.lang = "en" ∧
    (unloadedState (some loadableManifest)).loaded = false :=
  (load_characterization (fun _ => true) (unloadedState (some loadableManifest))
    "en").2.2.2 loadedSampleState rfl


lemma findVideoStreamInfo_find (trackId : ℕ) (l : List StreamInfo)
    (si : StreamInfo)
    (h : l.find? (fun i => i.uniqueId == trackId) = some si) :
    findVideoStreamInfo trackId l = si := by
  induction l with
  | nil => simp at h
  | cons y ys ih =>
    by_cases hy : (y.uniqueId == trackId) = true
    · rw [List.find?_cons_of_pos (p := fun i : StreamInfo => i.uniqueId == trackId) _ hy] at h
      simp only [Option.some.injEq] at h
      rw [← h]
      simp [findVideoStreamInfo, hy]
    · rw [List.find?_cons_of_neg (p := fun i : StreamInfo => i.uniqueId == trackId) _ hy] at h
      cases ys with
      | nil => simp at h
      | cons z zs =>
        have hres := ih h
        simp only [findVideoStreamInfo, hy, Bool.false_eq_true, if_false,
          List.isEmpty_cons]
        exact hres

/-- Claim C5: at stream start, for each content type that has stream
sets, the first stream set of that type is selected, and the initial
`StreamInfo` chosen from it is: for video, the first one whose unique
id equals the ABR manager\x27s initial video track id (when it exists);
for audio, the one at index `⌊n / 2⌋` of the set\x27s `n` infos; for
text, the first one; a type with no stream sets gets no selection. -/
theorem selectStreamInfos_characterization (abrTrackId : ℕ)
    (byType : ContentType → List StreamSetInfo)
    (htype : ∀ t, ∀ ss ∈ byType t, ss.contentType = t) :
    (∀ a as, byType ContentType.audio = a :: as →
      lookupType (selectStreamInfosByType abrTrackId (selectedStreamSets byType))
          ContentType.audio =
        some (a.streamInfos.getD (a.streamInfos.length / 2) default)) ∧
    (∀ x xs, byType ContentType.text = x :: xs →
      lookupType (selectStreamInfosByType abrTrackId (selectedStreamSets byType))
          ContentType.text = some x.streamInfos.headI) ∧
    (∀ v vs si, byType ContentType.video = v :: vs →
      v.streamInfos.find? (fun i => i.uniqueId == abrTrackId) = some si →
      lookupType (selectStreamInfosByType abrTrackId (selectedStreamSets byType))
          ContentType.video = some si) ∧
    (∀ t, byType t = [] →
      lookupType (selectStreamInfosByType abrTrackId (selectedStreamSets byType))
          t = none) := by
  refine ⟨?_, ?_, ?_, ?_⟩
  · intro a as ha
    have hca : a.contentType = ContentType.audio :=
      htype ContentType.audio a (ha ▸ List.mem_cons_self a as)
    cases hv : byType ContentType.video with
    | nil =>
      cases ht2 : byType ContentType.text with
      | nil =>
        simp [selectedStreamSets, selectStreamInfosByType, lookupType, ha, hv, ht2,
          hca, selectStreamInfo]
      | cons x xs =>
        have hcx : x.contentType = ContentType.text :=
          htype ContentType.text x (ht2 ▸ List.mem_cons_self x xs)
        simp [selectedStreamSets, selectStreamInfosByType, lookupType, ha, hv, ht2,
          hca, hcx, selectStreamInfo]
    | cons v vs =>
      have hcv : v.contentType = ContentType.video :=
        htype ContentType.video v (hv ▸ List.mem_cons_self v vs)
      cases ht2 : byType ContentType.text with
      | nil =>
        simp [selectedStreamSets, selectStreamInfosByType, lookupType, ha, hv, ht2,
          hca, hcv, selectStreamInfo]
      | cons x xs =>
        have hcx : x.contentType = ContentType.text :=
          htype ContentType.text x (ht2 ▸ List.mem_cons_self x xs)
        simp [selectedStreamSets, selectStreamInfosByType, lookupType, ha, hv, ht2,
          hca, hcv, hcx, selectStreamInfo]
  · intro x xs ht2
    have hcx : x.contentType = ContentType.text :=
      htype ContentType.text x (ht2 ▸ List.mem_cons_self x xs)
    cases ha : byType ContentType.audio with
    | nil =>
      cases hv : byType ContentType.video with
      | nil =>
        simp [selectedStreamSets, selectStreamInfosByType, lookupType, ha, hv, ht2,
          hcx, selectStreamInfo]
      | cons v vs =>
        have hcv : v.contentType = ContentType.video :=
          htype ContentType.video v (hv ▸ List.mem_cons_self v vs)
        simp [selectedStreamSets, selectStreamInfosByType, lookupType, ha, hv, ht2,
          hcv, hcx, selectStreamInfo]
    | cons a as =>
      have hca : a.contentType = ContentType.audio :=
        htype ContentType.audio a (ha ▸ List.mem_cons_self a as)
      cases hv : byType ContentType.video with
      | nil =>
        simp [selectedStreamSets, selectStreamInfosByType, lookupType, ha, hv, ht2,
          hca, hcx, selectStreamInfo]
      | cons v vs =>
        have hcv : v.contentType = ContentType.video :=
          htype ContentType.video v (hv ▸ List.mem_cons_self v vs)
        simp [selectedStreamSets, selectStreamInfosByType, lookupType, ha, hv, ht2,
          hca, hcv, hcx, selectStreamInfo]
  · intro v vs si hv hfind
    have hcv : v.contentType = ContentType.video :=
      htype ContentType.video v (hv ▸ List.mem_cons_self v vs)
    have hfv : findVideoStreamInfo abrTrackId v.streamInfos = si :=
      findVideoStreamInfo_find abrTrackId v.streamInfos si hfind
    cases ha : byType ContentType.audio with
    | nil =>
      cases ht2 : byType ContentType.text with
      | nil =>
        simp [selectedStreamSets, selectStreamInfosByType, lookupType, ha, hv, ht2,
          hcv, selectStreamInfo, hfv]
      | cons x xs =>
        have hcx : x.contentType = ContentType.text :=
          htype ContentType.text x (ht2 ▸ List.mem_cons_self x xs)
        simp [selectedStreamSets, selectStreamInfosByType, lookupType, ha, hv, ht2,
          hcv, hcx, selectStreamInfo, hfv]
    | cons a as =>
      have hca : a.contentType = ContentType.audio :=
        htype ContentType.audio a (ha ▸ List.mem_cons_self a as)
      cases ht2 : byType ContentType.text with
      | nil =>
        simp [selectedStreamSets, selectStreamInfosByType, lookupType, ha, hv, ht2,
          hca, hcv, selectStreamInfo, hfv]
      | cons x xs =>
        have hcx : x.contentType = ContentType.text :=
          htype ContentType.text x (ht2 ▸ List.mem_cons_self x xs)
        simp [selectedStreamSets, selectStreamInfosByType, lookupType, ha, hv, ht2,
          hca, hcv, hcx, selectStreamInfo, hfv]
  · intro t ht0
    cases t with
    | audio =>
      cases hv : byType ContentType.video with
      | nil =>
        cases ht2 : byType ContentType.text with
        | nil =>
          simp [selectedStreamSets, selectStreamInfosByType, lookupType, ht0, hv, ht2]
        | cons x xs =>
          have hcx : x.contentType = ContentType.text :=
            htype ContentType.text x (ht2 ▸ List.mem_cons_self x xs)
          simp [selectedStreamSets, selectStreamInfosByType, lookupType, ht0, hv, ht2,
            hcx]
      | cons v vs =>
        have hcv : v.contentType = ContentType.video :=
          htype ContentType.video v (hv ▸ List.mem_cons_self v vs)
        cases ht2 : byType ContentType.text with
        | nil =>
          simp [selectedStreamSets, selectStreamInfosByType, lookupType, ht0, hv, ht2,
            hcv]
        | cons x xs =>
          have hcx : x.contentType = ContentType.text :=
            htype ContentType.text x (ht2 ▸ List.mem_cons_self x xs)
          simp [selectedStreamSets, selectStreamInfosByType, lookupType, ht0, hv, ht2,
            hcv, hcx]
    | video =>
      cases ha : byType ContentType.audio with
      | nil =>
        cases ht2 : byType ContentType.text with
        | nil =>
          simp [selectedStreamSets, selectStreamInfosByType, lookupType, ht0, ha, ht2]
        | cons x xs =>
          have hcx : x.contentType = ContentType.text :=
            htype ContentType.text x (ht2 ▸ List.mem_cons_self x xs)
          simp [selectedStreamSets, selectStreamInfosByType, lookupType, ht0, ha, ht2,
            hcx]
      | cons a as =>
        have hca : a.contentType = ContentType.audio :=
          htype ContentType.audio a (ha ▸ List.mem_cons_self a as)
        cases ht2 : byType ContentType.text with
        | nil =>
          simp [selectedStreamSets, selectStreamInfosByType, lookupType, ht0, ha, ht2,
            hca]
        | cons x xs =>
          have hcx : x.contentType = ContentType.text :=
            htype ContentType.text x (ht2 ▸ List.mem_cons_self x xs)
          simp [selectedStreamSets, selectStreamInfosByType, lookupType, ht0, ha, ht2,
            hca, hcx]
    | text =>
      cases ha : byType ContentType.audio with
      | nil =>
        cases hv : byType ContentType.video with
        | nil =>
          simp [selectedStreamSets, selectStreamInfosByType, lookupType, ht0, ha, hv]
        | cons v vs =>
          have hcv : v.contentType = ContentType.video :=
            htype ContentType.video v (hv ▸ List.mem_cons_self v vs)
          simp [selectedStreamSets, selectStreamInfosByType, lookupType, ht0, ha, hv,
            hcv]
      | cons a as =>
        have hca : a.contentType = ContentType.audio :=
          htype ContentType.audio a (ha ▸ List.mem_cons_self a as)
        cases hv : byType ContentType.video with
        | nil =>
          simp [selectedStreamSets, selectStreamInfosByType, lookupType, ht0, ha, hv,
            hca]
        | cons v vs =>
          have hcv : v.contentType = ContentType.video :=
            htype ContentType.video v (hv ▸ List.mem_cons_self v vs)
          simp [selectedStreamSets, selectStreamInfosByType, lookupType, ht0, ha, hv,
            hca, hcv]


/-- Claim C5 (witness): the selection evaluated on one concrete set per
type — three audio infos yield the middle one (id 22), the video set
yields the ABR-selected id 12, and the text set yields its first
info (id 31). -/
theorem selectStreamInfos_characterization_witness :
    lookupType (selectStreamInfosByType 12 (selectedStreamSets sampleSetsByType))
        ContentType.audio = some (sampleAudioInfos.getD 1 default) ∧
    lookupType (selectStreamInfosByType 12 (selectedStreamSets sampleSetsByType))
        ContentType.text = some sampleTextInfos.headI ∧
    lookupType (selectStreamInfosByType 12 (selectedStreamSets sampleSetsByType))
        ContentType.video = some (sampleVideoInfos.getD 1 default) := by
  have htype : ∀ t, ∀ ss ∈ sampleSetsByType t, ss.contentType = t := by
    intro t ss hss
    cases t <;> simp [sampleSetsByType] at hss <;> rw [hss]
  have h := selectStreamInfos_characterization 12 sampleSetsByType htype
  exact ⟨h.1 _ _ rfl, h.2.1 _ _ rfl, h.2.2.1 _ _ _ rfl rfl⟩


/-- Claim C2 (witness): with the disabled audio representation (id 7)
currently playing, its listed track is flagged active. -/
theorem tracks_listing_characterization_witness :
    ({ id := 7, bandwidth := 128000, lang := "en", active := true } : AudioTrack).active
      = true :=
  (tracks_listing_characterization [restrictedAudioSet] (some restrictedAudioInfo)
      false).2.2.2.2.1 restrictedAudioInfo rfl
    { id := 7, bandwidth := 128000, lang := "en", active := true }
    (by simp [getAudioTracks, audioTracksOfSet, restrictedAudioSet,
      restrictedAudioInfo, activeTrackId]) rfl

end Shaka
